import Mathlib

/-! Shallow embedding of the PeerDrop useWebRTC hook: the data-channel
message handler (receiver side of the transfer protocol), the session
state machine, and the chunked file sender with backpressure. -/

/-- JSON values as produced by the platform JSON.parse. Numbers are
modelled as integers; the only numeric fields in the protocol are byte
sizes and timestamps. -/
inductive Json where
  | null
  | bool (b : Bool)
  | num (n : Int)
  | str (s : String)
  | arr (elems : List Json)
  | obj (fields : List (String × Json))

/-- Data carried by a data-channel message event: a string together with
the result of JSON.parse on it (none when parsing throws), or an
ArrayBuffer modelled as its byte list. -/
inductive DCData where
  | str (raw : String) (parsed : Option Json)
  | binary (buf : List Nat)

/-- The sender tag of a logged message ('me' or 'peer'). -/
inductive Sender where
  | me
  | peer
deriving DecidableEq

/-- Property access message[k] in JavaScript: throws a TypeError on null,
yields the field on objects (undefined, i.e. none, when absent), and
undefined on every other value. -/
def jsGetProp (j : Json) (k : String) : Except Unit (Option Json) :=
  match j with
  | .null => .error ()
  | .obj fields => .ok (fields.lookup k)
  | _ => .ok none

/-- JavaScript strict equality of an accessed property value against a
string literal: true exactly when the value is that string. -/
def strictEqStr (v : Option Json) (s : String) : Bool :=
  match v with
  | some (.str t) => t == s
  | _ => false

/-- Model of a JS Blob built from the received binary chunks: the
concatenated bytes and the value supplied for the type option. An object
URL is identified with the blob it denotes. -/
structure Blob where
  bytes : List Nat
  type : Option Json

/-- Evaluation of new Blob(chunks, with type info.type): reading info.type
throws when info is undefined (none) or JSON null; the blob concatenates
the chunks in order. -/
def mkBlob (chunks : List (List Nat)) (info : Option Json) : Except Unit Blob :=
  match info with
  | none => .error ()
  | some j => do
      let t ← jsGetProp j "type"
      pure ⟨chunks.flatten, t⟩

/-- Entries of the received-messages log. structuredText models the spread
of a parsed JSON record with sender overridden; fallbackText models the
catch-branch plain text message (its random id and timestamp are elided as
platform nondeterminism); fileMsg models a file message whose fileInfo is
the raw announced payload and whose downloadUrl points at the blob. -/
inductive ReceivedMessage where
  | structuredText (message : Json) (sender : Sender)
  | fallbackText (content : String) (sender : Sender)
  | fileMsg (fileInfo : Option Json) (downloadUrl : Blob) (sender : Sender)

/-- Connection state of the hook. -/
inductive ConnState where
  | disconnected
  | connecting
  | connected
  | failed
deriving DecidableEq

/-- The in-flight file transfer state of the receiver: the announced info
(the raw payload of the file-meta record, none when the payload property
was absent) and the chunks received so far, in arrival order. -/
structure FileReceiver where
  info : Option Json
  chunks : List (List Nat)

/-- The state held by the useWebRTC hook: connection state, whether the
peer-connection handle (pc) and data-channel handle (dc) are non-null,
the error message, the receiver transfer state, and the message log.
The offer and answer SDP fields, which no modelled operation reads, are
elided. -/
structure Session where
  connectionState : ConnState
  pcSome : Bool
  dcSome : Bool
  errorMessage : Option String
  fileReceiver : Option FileReceiver
  receivedMessages : List ReceivedMessage

/-- Body of the try block of handleDataChannelMessage for a successfully
parsed string message; any JavaScript exception is Except.error. -/
def handleParsed (message : Json) (s : Session) : Except Unit Session := do
  let t ← jsGetProp message "type"
  if strictEqStr t "file-meta" then do
    let payload ← jsGetProp message "payload"
    pure { s with fileReceiver := some ⟨payload, []⟩ }
  else if strictEqStr t "file-end" && s.fileReceiver.isSome then
    match s.fileReceiver with
    | some fr => do
        let blob ← mkBlob fr.chunks fr.info
        pure { s with fileReceiver := none,
                      receivedMessages := s.receivedMessages
                        ++ [.fileMsg fr.info blob .peer] }
    | none => pure s
  else if strictEqStr t "text" then
    pure { s with receivedMessages := s.receivedMessages ++ [.structuredText message .peer] }
  else
    pure s

/-- The data-channel onmessage handler: string data goes through JSON.parse
and the control-record dispatch inside try/catch, where the catch appends
the entire raw text as a plain text message from the peer; ArrayBuffer data
is appended to the active transfer's chunks and otherwise dropped. -/
def handleDataChannelMessage (event : DCData) (s : Session) : Session :=
  match event with
  | .str raw parsed =>
      let attempt : Except Unit Session := do
        let message ← match parsed with
          | some j => Except.ok j
          | none => Except.error ()
        handleParsed message s
      match attempt with
      | .ok s2 => s2
      | .error _ =>
          { s with receivedMessages := s.receivedMessages ++ [.fallbackText raw .peer] }
  | .binary buf =>
      match s.fileReceiver with
      | some fr => { s with fileReceiver := some { fr with chunks := fr.chunks ++ [buf] } }
      | none => s

/-- Folding a sequence of inbound data-channel events through the handler. -/
def processEvents (s : Session) (evts : List DCData) : Session :=
  evts.foldl (fun acc e => handleDataChannelMessage e acc) s

/-- The file info record carried by a file-meta control message. -/
structure FileInfo where
  name : String
  size : Nat
  type : String
deriving DecidableEq

/-- Encoding of a FileInfo as the JSON payload object. -/
def encodeFileInfo (fi : FileInfo) : Json :=
  .obj [("name", .str fi.name), ("size", .num (fi.size : Int)), ("type", .str fi.type)]

/-- A file-meta control record with an arbitrary payload value. -/
def fileMetaJson (payload : Json) : Json :=
  .obj [("type", .str "file-meta"), ("payload", payload)]

/-- The file-meta control record announcing a file. -/
def encodeFileMeta (fi : FileInfo) : Json :=
  fileMetaJson (encodeFileInfo fi)

/-- The file-end control record. -/
def fileEndJson : Json :=
  .obj [("type", .str "file-end")]

/-- Modelled from the spec: the decode direction of the file-meta payload
round-trip (the source only casts the parsed payload, so the requirement
that decoding an encoded record yields the original name, size and
mimeType follows the spec's wording). -/
def specDecodeFileInfo (j : Json) : Option FileInfo :=
  match j with
  | .obj fields =>
      match fields.lookup "name", fields.lookup "size", fields.lookup "type" with
      | some (.str n), some (.num sz), some (.str t) =>
          if 0 ≤ sz then some ⟨n, sz.toNat, t⟩ else none
      | _, _, _ => none
  | _ => none

/-- The initial hook state: disconnected, no handles, empty log. -/
def emptySession : Session :=
  ⟨.disconnected, false, false, none, none, []⟩

/-- resetState: closes and releases the peer connection and the data
channel, returns to disconnected, clears the message log, the SDP blobs,
the receiver transfer state and the error message. -/
def resetState (_ : Session) : Session :=
  emptySession

/-- createPeerConnection: allocates a fresh RTCPeerConnection and installs
its event handlers (the handlers themselves are the event steps below). -/
def createPeerConnection (s : Session) : Session :=
  { s with pcSome := true }

/-- The onconnectionstatechange handler observing the failed state: sets
the error message and the failed connection state; the pc and dc handles
are not touched. -/
def connectionFailed (s : Session) : Session :=
  if s.pcSome then
    { s with
        errorMessage := some "Connection failed. This could be due to a network issue or firewall.",
        connectionState := .failed }
  else s

/-- createOffer: resets, creates a fresh connection and an outbound data
channel, then awaits offer creation and setLocalDescription; ok records
whether those awaits succeeded (on failure the rejection is unhandled and
the connecting state is never set). -/
def createOffer (ok : Bool) (s : Session) : Session :=
  let s1 := createPeerConnection (resetState s)
  let s2 := { s1 with dcSome := true }
  if ok then { s2 with connectionState := .connecting } else s2

/-- createAnswer: creates a connection first if none exists (after a
reset); then, inside try, parses the remote offer and performs the
negotiation steps; ok records whether the try block succeeded, and the
catch sets the error message and the failed state. -/
def createAnswer (ok : Bool) (s : Session) : Session :=
  let s1 := if s.pcSome then s else createPeerConnection (resetState s)
  if ok then { s1 with connectionState := .connecting }
  else
    { s1 with
        errorMessage := some "Invalid session offer. Please copy the entire offer text and try again.",
        connectionState := .failed }

/-- setRemoteAnswer: returns immediately when no connection handle exists;
otherwise, inside try, parses and applies the remote answer; ok records
whether the try block succeeded, and the catch sets the error message and
the failed state. -/
def setRemoteAnswer (ok : Bool) (s : Session) : Session :=
  if s.pcSome then
    if ok then s
    else
      { s with
          errorMessage := some "Invalid session answer. Please copy the entire answer text and try again.",
          connectionState := .failed }
  else s

/-- The data channel onopen handler. -/
def onChannelOpen (s : Session) : Session :=
  if s.dcSome then { s with connectionState := .connected } else s

/-- The data channel onclose handler: a full reset. -/
def onChannelClose (s : Session) : Session :=
  if s.dcSome then resetState s else s

/-- The ondatachannel handler on the answerer side: adopts the announced
channel. -/
def onDataChannel (s : Session) : Session :=
  if s.pcSome then { s with dcSome := true } else s

/-- Sessions reachable from the initial hook state by the modelled
operations and events. -/
inductive SessionReachable : Session → Prop where
  | init : SessionReachable emptySession
  | reset {s} : SessionReachable s → SessionReachable (resetState s)
  | offer {s} (ok : Bool) : SessionReachable s → SessionReachable (createOffer ok s)
  | answer {s} (ok : Bool) : SessionReachable s → SessionReachable (createAnswer ok s)
  | remoteAnswer {s} (ok : Bool) : SessionReachable s → SessionReachable (setRemoteAnswer ok s)
  | connFailed {s} : SessionReachable s → SessionReachable (connectionFailed s)
  | chanOpen {s} : SessionReachable s → SessionReachable (onChannelOpen s)
  | chanClose {s} : SessionReachable s → SessionReachable (onChannelClose s)
  | dataChannel {s} : SessionReachable s → SessionReachable (onDataChannel s)
  | message {s} (e : DCData) : SessionReachable s → SessionReachable (handleDataChannelMessage e s)

/-- The configured chunk size, 16 KB. -/
def CHUNK_SIZE : Nat := 16384

/-- The chunk frames the sendChunk loop produces from a buffer starting at
a byte offset: slice(offset, offset + CHUNK_SIZE), then advance the offset
by the slice's byte length. -/
def fileChunks (buffer : List Nat) (offset : Nat) : List (List Nat) :=
  if buffer.length ≤ offset then []
  else
    ((buffer.drop offset).take CHUNK_SIZE)
      :: fileChunks buffer (offset + ((buffer.drop offset).take CHUNK_SIZE).length)
termination_by buffer.length - offset
decreasing_by
  simp only [List.length_take, List.length_drop, CHUNK_SIZE]
  omega

/-- One frame sent on the data channel: a serialized control record or one
binary chunk. -/
inductive Frame where
  | ctrl (j : Json)
  | binary (b : List Nat)

/-- State of the sendChunk loop closure: the read offset, whether an
onbufferedamountlow continuation is registered (waiting), whether a
setTimeout callback is pending, the frames sent so far, and whether the
loop has sent file-end and returned without rescheduling (finished). -/
structure SenderState where
  offset : Nat
  waiting : Bool
  timerPending : Bool
  sent : List Frame
  finished : Bool

/-- The sender loop state at the start of onload. -/
def initSenderState : SenderState :=
  ⟨0, false, false, [], false⟩

/-- One invocation of sendChunk; hw is the value of the comparison
bufferedAmount > bufferedAmountLowThreshold read at this invocation. -/
def sendChunk (buffer : List Nat) (hw : Bool) (s : SenderState) : SenderState :=
  if buffer.length ≤ s.offset then
    { s with sent := s.sent ++ [.ctrl fileEndJson], finished := true }
  else if hw then
    { s with waiting := true }
  else
    let chunk := (buffer.drop s.offset).take CHUNK_SIZE
    { s with sent := s.sent ++ [.binary chunk],
             offset := s.offset + chunk.length,
             timerPending := true }

/-- Events delivered to the sender loop: a due setTimeout callback, or the
onbufferedamountlow drain signal; each carries the bufferedAmount
comparison that the triggered sendChunk invocation observes. -/
inductive SenderEvent where
  | timer (hw : Bool)
  | drain (hw : Bool)

/-- Event dispatch for the sender loop: a timer callback runs only when one
is pending; the drain signal runs the registered continuation, which first
sets onbufferedamountlow back to null and then calls sendChunk. -/
def senderStep (buffer : List Nat) (s : SenderState) : SenderEvent → SenderState
  | .timer hw => if s.timerPending then sendChunk buffer hw { s with timerPending := false } else s
  | .drain hw => if s.waiting then sendChunk buffer hw { s with waiting := false } else s

/-- Running the sender loop under a schedule of events. -/
def runSender (buffer : List Nat) (s : SenderState) (evts : List SenderEvent) : SenderState :=
  evts.foldl (senderStep buffer) s

/-- A File handle: name, MIME type and content bytes; file.size is the
content's byte length. -/
structure JsFile where
  name : String
  type : String
  content : List Nat

/-- sendFile: a no-op when the channel is not open; otherwise sends the
file-meta record, reads the whole file into a buffer, and runs the
sendChunk loop (the first invocation is direct, the rest are driven by
timer and drain events). The result is the list of frames transmitted. -/
def sendFile (channelOpen : Bool) (f : JsFile) (hw0 : Bool) (evts : List SenderEvent) : List Frame :=
  if channelOpen then
    .ctrl (encodeFileMeta ⟨f.name, f.content.length, f.type⟩)
      :: (runSender f.content (sendChunk f.content hw0 initSenderState) evts).sent
  else []

/-- Sender-loop states reachable from the initial direct sendChunk call by
any schedule of timer and drain events. -/
inductive SenderReachable (buffer : List Nat) : SenderState → Prop where
  | start (hw : Bool) : SenderReachable buffer (sendChunk buffer hw initSenderState)
  | step {s} (e : SenderEvent) : SenderReachable buffer s → SenderReachable buffer (senderStep buffer s e)

/-- The value of the type property of a parsed JSON value other than null:
the field on objects, undefined elsewhere. -/
def typeTagOf (j : Json) : Option Json :=
  match j with
  | .obj fields => fields.lookup "type"
  | _ => none

/-- Helper: delivering a run of binary frames while a transfer is in
flight appends them to its chunk list in arrival order and changes nothing
else. -/
theorem processEvents_binary (cs : List (List Nat)) :
    ∀ (c : ConnState) (p d : Bool) (e : Option String) (info : Option Json)
      (acc : List (List Nat)) (msgs : List ReceivedMessage),
    processEvents ⟨c, p, d, e, some ⟨info, acc⟩, msgs⟩ (cs.map DCData.binary)
      = ⟨c, p, d, e, some ⟨info, acc ++ cs⟩, msgs⟩ := by
  induction cs with
  | nil => intro c p d e info acc msgs; simp [processEvents]
  | cons hd tl ih =>
      intro c p d e info acc msgs
      have h1 : processEvents ⟨c, p, d, e, some ⟨info, acc⟩, msgs⟩ ((hd :: tl).map DCData.binary)
          = processEvents ⟨c, p, d, e, some ⟨info, acc ++ [hd]⟩, msgs⟩ (tl.map DCData.binary) := rfl
      rw [h1, ih]
      simp

/-- Helper: decoding an encoded file-meta payload recovers the original
file info exactly. -/
theorem specDecode_encodeFileInfo (fi : FileInfo) :
    specDecodeFileInfo (encodeFileInfo fi) = some fi := by
  have h : specDecodeFileInfo (encodeFileInfo fi)
      = if (0 : Int) ≤ (fi.size : Int) then some ⟨fi.name, ((fi.size : Int)).toNat, fi.type⟩ else none := rfl
  rw [h, if_pos (Int.natCast_nonneg fi.size)]
  simp

/-- C2: for a received sequence file-meta(info), chunks c1..cn in order,
file-end, the receiver appends exactly one FileMessage whose payload blob
is the concatenation c1 ++ ... ++ cn tagged with info's mime type, whose
fileInfo is the encoded name/size/type record (which decodes back to the
original exactly), with sender = peer, and clears the transfer state;
nothing else in the session changes. -/
theorem C2_receive_file_assembly (s : Session) (fi : FileInfo) (cs : List (List Nat))
    (raw1 raw2 : String) :
    processEvents s
        (DCData.str raw1 (some (encodeFileMeta fi))
          :: (cs.map DCData.binary ++ [DCData.str raw2 (some fileEndJson)]))
      = { s with fileReceiver := none,
                 receivedMessages := s.receivedMessages
                   ++ [ReceivedMessage.fileMsg (some (encodeFileInfo fi))
                        ⟨cs.flatten, some (Json.str fi.type)⟩ Sender.peer] }
    ∧ specDecodeFileInfo (encodeFileInfo fi) = some fi := by
  refine ⟨?_, specDecode_encodeFileInfo fi⟩
  have h1 : processEvents s
        (DCData.str raw1 (some (encodeFileMeta fi))
          :: (cs.map DCData.binary ++ [DCData.str raw2 (some fileEndJson)]))
      = processEvents { s with fileReceiver := some ⟨some (encodeFileInfo fi), []⟩ }
          (cs.map DCData.binary ++ [DCData.str raw2 (some fileEndJson)]) := rfl
  rw [h1]
  have h2 : processEvents { s with fileReceiver := some ⟨some (encodeFileInfo fi), []⟩ }
        (cs.map DCData.binary ++ [DCData.str raw2 (some fileEndJson)])
      = processEvents { s with fileReceiver := some ⟨some (encodeFileInfo fi), ([] : List (List Nat)) ++ cs⟩ }
          [DCData.str raw2 (some fileEndJson)] := by
    rw [processEvents, List.foldl_append]
    have h3 := processEvents_binary cs s.connectionState s.pcSome s.dcSome s.errorMessage
      (some (encodeFileInfo fi)) [] s.receivedMessages
    rw [processEvents] at h3
    exact congrArg _ h3
  rw [h2]
  simp only [List.nil_append]
  rfl

/-- C6: a textual frame on which JSON.parse throws is appended to the log
as a plain text message whose content is the entire raw text, with
sender = peer; the handler is a total function, so no error crosses the
handler boundary on any inbound unit. -/
theorem C6_parse_failure_text_fallback (s : Session) (raw : String) :
    handleDataChannelMessage (DCData.str raw none) s
      = { s with receivedMessages := s.receivedMessages
            ++ [ReceivedMessage.fallbackText raw Sender.peer] } := rfl

/-- C7: an inbound file-meta record makes the transfer state exactly the
announced info with an empty chunk list, unconditionally replacing any
prior in-flight transfer, and appends nothing to the log. -/
theorem C7_file_meta_replaces_transfer (s : Session) (raw : String) (payload : Json) :
    handleDataChannelMessage (DCData.str raw (some (fileMetaJson payload))) s
      = { s with fileReceiver := some ⟨some payload, []⟩ } := rfl

/-- C8: a file-end record received while no transfer is in flight is a
strict no-op: the whole session state, in particular the message log and
the transfer state, is unchanged. -/
theorem C8_file_end_without_transfer_noop (c : ConnState) (p d : Bool) (e : Option String)
    (msgs : List ReceivedMessage) (raw : String) :
    handleDataChannelMessage (DCData.str raw (some fileEndJson)) ⟨c, p, d, e, none, msgs⟩
      = ⟨c, p, d, e, none, msgs⟩ := rfl

/-- C9: a binary frame is appended to the in-flight transfer's chunk list
in arrival order when one is active, and is silently discarded (state and
log unchanged) when none is. -/
theorem C9_binary_chunk_handling :
    (∀ (c : ConnState) (p d : Bool) (e : Option String) (msgs : List ReceivedMessage)
        (buf : List Nat),
      handleDataChannelMessage (DCData.binary buf) ⟨c, p, d, e, none, msgs⟩
        = ⟨c, p, d, e, none, msgs⟩)
    ∧ (∀ (c : ConnState) (p d : Bool) (e : Option String) (info : Option Json)
        (chs : List (List Nat)) (msgs : List ReceivedMessage) (buf : List Nat),
      handleDataChannelMessage (DCData.binary buf) ⟨c, p, d, e, some ⟨info, chs⟩, msgs⟩
        = ⟨c, p, d, e, some ⟨info, chs ++ [buf]⟩, msgs⟩) :=
  ⟨fun _ _ _ _ _ _ => rfl, fun _ _ _ _ _ _ _ _ => rfl⟩

/-- C10 counterexample: the string "null" parses as valid JSON (null),
whose type discriminator is none of the three known tags, yet the handler
does not drop it silently: reading null.type throws, the catch runs, and
the raw text "null" is appended as a plain text message. -/
theorem C10_counterexample :
    (handleDataChannelMessage (DCData.str "null" (some Json.null)) emptySession).receivedMessages
      = [ReceivedMessage.fallbackText "null" Sender.peer]
    ∧ handleDataChannelMessage (DCData.str "null" (some Json.null)) emptySession ≠ emptySession := by
  refine ⟨rfl, fun h => ?_⟩
  have h2 : (1 : Nat) = 0 := congrArg (fun s => s.receivedMessages.length) h
  exact Nat.one_ne_zero h2

/-- C10 amended: a string frame parsing to a JSON value other than null
whose type discriminator is none of text, file-meta, file-end is silently
dropped (session unchanged); for JSON null the property access itself
throws and the plain-text fallback applies instead. -/
theorem C10_unknown_json_dropped (s : Session) (raw : String) (j : Json)
    (hnull : j ≠ Json.null)
    (hm : strictEqStr (typeTagOf j) "file-meta" = false)
    (he : strictEqStr (typeTagOf j) "file-end" = false)
    (ht : strictEqStr (typeTagOf j) "text" = false) :
    handleDataChannelMessage (DCData.str raw (some j)) s = s := by
  cases j with
  | null => exact absurd rfl hnull
  | bool b => rfl
  | num n => rfl
  | str t => rfl
  | arr elems => rfl
  | obj fields =>
      simp only [typeTagOf] at hm he ht
      have h0 : handleParsed (Json.obj fields) s
          = (if strictEqStr (List.lookup "type" fields) "file-meta" then
               (do
                 let payload ← jsGetProp (Json.obj fields) "payload"
                 pure { s with fileReceiver := some ⟨payload, []⟩ })
             else if strictEqStr (List.lookup "type" fields) "file-end" && s.fileReceiver.isSome then
               (match s.fileReceiver with
                | some fr => do
                    let blob ← mkBlob fr.chunks fr.info
                    pure { s with fileReceiver := none,
                                  receivedMessages := s.receivedMessages
                                    ++ [.fileMsg fr.info blob .peer] }
                | none => pure s)
             else if strictEqStr (List.lookup "type" fields) "text" then
               pure { s with receivedMessages := s.receivedMessages
                 ++ [.structuredText (Json.obj fields) .peer] }
             else pure s) := rfl
      have h1 : handleDataChannelMessage (DCData.str raw (some (Json.obj fields))) s
          = (match handleParsed (Json.obj fields) s with
             | .ok s2 => s2
             | .error _ =>
                 { s with receivedMessages := s.receivedMessages
                     ++ [.fallbackText raw .peer] }) := rfl
      rw [h1, h0, hm, he, ht]
      rfl

/-- Witness for the amended C10 at a concrete input: the JSON number 5 is
silently dropped. -/
theorem C10_unknown_json_dropped_witness :
    handleDataChannelMessage (DCData.str "5" (some (Json.num 5))) emptySession = emptySession :=
  C10_unknown_json_dropped emptySession "5" (Json.num 5)
    (fun h => Json.noConfusion h) rfl rfl rfl

/-- C4 counterexample: from the initial state, createOffer followed by the
connection-failure event yields a reachable session whose state is Failed
while the data-channel handle is still held (dc non-null): the transition
into Failed does not release the channel. -/
theorem C4_counterexample :
    SessionReachable (connectionFailed (createOffer true emptySession))
    ∧ (connectionFailed (createOffer true emptySession)).connectionState = ConnState.failed
    ∧ (connectionFailed (createOffer true emptySession)).dcSome = true :=
  ⟨SessionReachable.connFailed (SessionReachable.offer true SessionReachable.init), rfl, rfl⟩

/-- C4 amended: every transition into Failed (connection-failure event,
createAnswer failure, setRemoteAnswer failure) leaves the channel handle
exactly as it was, so the handle can remain non-null in the Failed state;
the handle is released (null) on the transitions into Disconnected, namely
resetState and the channel close event. -/
theorem C4_failed_retains_channel (s : Session) :
    ((connectionFailed s).dcSome = s.dcSome)
    ∧ ((setRemoteAnswer false s).dcSome = s.dcSome)
    ∧ (s.pcSome = true → (createAnswer false s).dcSome = s.dcSome)
    ∧ ((resetState s).dcSome = false ∧ (resetState s).connectionState = ConnState.disconnected)
    ∧ (s.dcSome = true →
        (onChannelClose s).dcSome = false
        ∧ (onChannelClose s).connectionState = ConnState.disconnected) := by
  refine ⟨?_, ?_, ?_, ⟨rfl, rfl⟩, ?_⟩
  · unfold connectionFailed; split <;> rfl
  · unfold setRemoteAnswer; split <;> rfl
  · intro hp; simp [createAnswer, hp]
  · intro hd; simp [onChannelClose, hd, resetState, emptySession]

/-- Witness for the amended C4 at a concrete session that holds a channel:
a failing createAnswer keeps the handle, while channel close releases it. -/
theorem C4_failed_retains_channel_witness :
    (createAnswer false (createOffer true emptySession)).dcSome = true
    ∧ (onChannelClose (createOffer true emptySession)).dcSome = false := by
  have h := C4_failed_retains_channel (createOffer true emptySession)
  exact ⟨(h.2.2.1 rfl).trans rfl, (h.2.2.2.2 rfl).1⟩

/-- C5: a failing createAnswer always moves the session to Failed with a
non-empty error diagnostic, and so does a failing setRemoteAnswer whenever
a connection handle exists (without one it returns before parsing); the
step functions are total, so the failure is reported through state rather
than thrown to the caller. -/
theorem C5_negotiation_failure_reported (s : Session) :
    ((createAnswer false s).connectionState = ConnState.failed
      ∧ ∃ m, (createAnswer false s).errorMessage = some m ∧ m ≠ "")
    ∧ (s.pcSome = true →
        (setRemoteAnswer false s).connectionState = ConnState.failed
        ∧ ∃ m, (setRemoteAnswer false s).errorMessage = some m ∧ m ≠ "") := by
  refine ⟨⟨rfl, _, rfl, by decide⟩, fun hp => ?_⟩
  have h : setRemoteAnswer false s
      = { s with
            errorMessage := some "Invalid session answer. Please copy the entire answer text and try again.",
            connectionState := .failed } := by
    simp [setRemoteAnswer, hp]
  rw [h]
  exact ⟨rfl, _, rfl, by decide⟩

/-- Witness for C5 at concrete inputs: a failing createAnswer from the
initial state, and a failing setRemoteAnswer on an offerer session. -/
theorem C5_negotiation_failure_reported_witness :
    (createAnswer false emptySession).connectionState = ConnState.failed
    ∧ (setRemoteAnswer false (createOffer true emptySession)).connectionState = ConnState.failed :=
  ⟨(C5_negotiation_failure_reported emptySession).1.1,
   ((C5_negotiation_failure_reported (createOffer true emptySession)).2 rfl).1⟩

/-- Helper: the sendChunk loop produces no chunks at or past the end of the
buffer. -/
theorem fileChunks_nil {buffer : List Nat} {offset : Nat} (h : buffer.length ≤ offset) :
    fileChunks buffer offset = [] := by
  rw [fileChunks, if_pos h]

/-- Helper: one unfolding of the sendChunk loop before the end of the
buffer. -/
theorem fileChunks_cons {buffer : List Nat} {offset : Nat} (h : offset < buffer.length) :
    fileChunks buffer offset
      = ((buffer.drop offset).take CHUNK_SIZE)
        :: fileChunks buffer (offset + ((buffer.drop offset).take CHUNK_SIZE).length) := by
  rw [fileChunks, if_neg (by omega)]

/-- Helper: the number of chunks is the ceiling of the remaining byte
count divided by the chunk size. -/
theorem fileChunks_length (buffer : List Nat) (offset : Nat) :
    (fileChunks buffer offset).length = (buffer.length - offset + CHUNK_SIZE - 1) / CHUNK_SIZE := by
  by_cases h : buffer.length ≤ offset
  · rw [fileChunks_nil h]
    have h0 : buffer.length - offset = 0 := by omega
    rw [h0]
    simp [CHUNK_SIZE]
  · rw [fileChunks_cons (by omega)]
    have ih := fileChunks_length buffer (offset + ((buffer.drop offset).take CHUNK_SIZE).length)
    rw [List.length_cons, ih]
    simp only [List.length_take, List.length_drop, CHUNK_SIZE] at *
    omega
termination_by buffer.length - offset
decreasing_by
  simp only [List.length_take, List.length_drop, CHUNK_SIZE]
  omega

/-- Helper: the i-th chunk is the slice of the buffer at byte offset
i * CHUNK_SIZE past the loop's starting offset. -/
theorem fileChunks_getD (buffer : List Nat) (offset i : Nat) :
    (fileChunks buffer offset).getD i []
      = (buffer.drop (offset + i * CHUNK_SIZE)).take CHUNK_SIZE := by
  by_cases h : buffer.length ≤ offset
  · rw [fileChunks_nil h]
    have hd : buffer.drop (offset + i * CHUNK_SIZE) = [] := List.drop_eq_nil_of_le (by omega)
    simp [hd]
  · rw [fileChunks_cons (by omega)]
    cases i with
    | zero => simp
    | succ k =>
        rw [List.getD_cons_succ]
        rw [fileChunks_getD buffer (offset + ((buffer.drop offset).take CHUNK_SIZE).length) k]
        by_cases h2 : CHUNK_SIZE ≤ buffer.length - offset
        · have harg : offset + ((buffer.drop offset).take CHUNK_SIZE).length + k * CHUNK_SIZE
              = offset + (k + 1) * CHUNK_SIZE := by
            simp only [List.length_take, List.length_drop, CHUNK_SIZE] at *
            omega
          rw [harg]
        · have e1 : buffer.drop (offset + ((buffer.drop offset).take CHUNK_SIZE).length + k * CHUNK_SIZE) = [] := by
            apply List.drop_eq_nil_of_le
            simp only [List.length_take, List.length_drop, CHUNK_SIZE] at *
            omega
          have e2 : buffer.drop (offset + (k + 1) * CHUNK_SIZE) = [] := by
            apply List.drop_eq_nil_of_le
            simp only [CHUNK_SIZE] at *
            omega
          rw [e1, e2]
termination_by buffer.length - offset
decreasing_by
  simp only [List.length_take, List.length_drop, CHUNK_SIZE]
  omega

/-- Helper: concatenating the chunks reproduces the remaining buffer
bytes exactly. -/
theorem fileChunks_flatten (buffer : List Nat) (offset : Nat) :
    (fileChunks buffer offset).flatten = buffer.drop offset := by
  by_cases h : buffer.length ≤ offset
  · rw [fileChunks_nil h]
    simp [List.drop_eq_nil_of_le h]
  · rw [fileChunks_cons (by omega), List.flatten_cons,
        fileChunks_flatten buffer (offset + ((buffer.drop offset).take CHUNK_SIZE).length)]
    have hdd : buffer.drop (offset + ((buffer.drop offset).take CHUNK_SIZE).length)
        = (buffer.drop offset).drop (((buffer.drop offset).take CHUNK_SIZE).length) := by
      rw [List.drop_drop]
    rw [hdd]
    have h2 : ((buffer.drop offset).drop (((buffer.drop offset).take CHUNK_SIZE).length))
        = (buffer.drop offset).drop CHUNK_SIZE := by
      rcases le_total (buffer.drop offset).length CHUNK_SIZE with hc | hc
      · have hlen : ((buffer.drop offset).take CHUNK_SIZE).length = (buffer.drop offset).length := by
          rw [List.length_take, min_eq_right hc]
        rw [hlen, List.drop_length, List.drop_eq_nil_of_le hc]
      · rw [List.length_take, min_eq_left hc]
    rw [h2, List.take_append_drop]
termination_by buffer.length - offset
decreasing_by
  simp only [List.length_take, List.length_drop, CHUNK_SIZE]
  omega

/-- Helper: every chunk is exactly CHUNK_SIZE bytes except the final one,
which carries the remainder (or a full chunk when the remaining size is
divisible). -/
theorem fileChunks_map_length (buffer : List Nat) (offset : Nat) (h : offset < buffer.length) :
    (fileChunks buffer offset).map List.length
      = List.replicate ((fileChunks buffer offset).length - 1) CHUNK_SIZE
        ++ [if (buffer.length - offset) % CHUNK_SIZE = 0 then CHUNK_SIZE
            else (buffer.length - offset) % CHUNK_SIZE] := by
  rw [fileChunks_cons h]
  by_cases h2 : buffer.length - offset ≤ CHUNK_SIZE
  · have hnil : fileChunks buffer (offset + ((buffer.drop offset).take CHUNK_SIZE).length) = [] := by
      apply fileChunks_nil
      simp only [List.length_take, List.length_drop]
      omega
    rw [hnil]
    simp only [List.map_cons, List.map_nil, List.length_cons, List.length_nil, Nat.zero_add,
      Nat.sub_self, List.replicate_zero, List.nil_append, List.length_take, List.length_drop]
    congr 1
    simp only [CHUNK_SIZE] at *
    rcases eq_or_ne ((buffer.length - offset) % 16384) 0 with h0 | h0
    · rw [if_pos h0]
      omega
    · rw [if_neg h0]
      omega
  · have hclen : ((buffer.drop offset).take CHUNK_SIZE).length = CHUNK_SIZE := by
      simp only [List.length_take, List.length_drop]
      omega
    rw [List.map_cons, hclen]
    have h3 : offset + CHUNK_SIZE < buffer.length := by
      simp only [CHUNK_SIZE] at *
      omega
    rw [fileChunks_map_length buffer (offset + CHUNK_SIZE) h3]
    have hmod : (buffer.length - (offset + CHUNK_SIZE)) % CHUNK_SIZE
        = (buffer.length - offset) % CHUNK_SIZE := by
      simp only [CHUNK_SIZE] at *
      omega
    rw [hmod, List.length_cons]
    have hpos : 1 ≤ (fileChunks buffer (offset + CHUNK_SIZE)).length := by
      rw [fileChunks_length]
      simp only [CHUNK_SIZE] at *
      omega
    obtain ⟨m, hm⟩ : ∃ m, (fileChunks buffer (offset + CHUNK_SIZE)).length = m + 1 :=
      ⟨(fileChunks buffer (offset + CHUNK_SIZE)).length - 1, by omega⟩
    rw [hm]
    simp [List.replicate_succ]
termination_by buffer.length - offset
decreasing_by
  simp only [List.length_take, List.length_drop, CHUNK_SIZE]
  omega

/-- Invariant of the sender loop: the continuation slot and the timer are
never both armed; a finished loop has both disarmed and its offset past the
end; and the frames sent so far are exactly the chunk prefix consumed so
far, followed by the file-end record once finished. -/
def SenderInv (buffer : List Nat) (s : SenderState) : Prop :=
  (s.waiting = true → s.timerPending = false)
  ∧ (s.finished = true → s.waiting = false ∧ s.timerPending = false ∧ buffer.length ≤ s.offset)
  ∧ ∃ pre, fileChunks buffer 0 = pre ++ fileChunks buffer s.offset
      ∧ (s.finished = false → s.sent = pre.map Frame.binary)
      ∧ (s.finished = true → s.sent = pre.map Frame.binary ++ [Frame.ctrl fileEndJson])

/-- Helper: one sendChunk invocation entered with both the continuation
slot and the timer disarmed preserves the sender invariant. -/
theorem sendChunk_inv (buffer : List Nat) (hw : Bool) (s : SenderState)
    (hw1 : s.waiting = false) (ht : s.timerPending = false) (hf : s.finished = false)
    (hs : SenderInv buffer s) :
    SenderInv buffer (sendChunk buffer hw s) := by
  obtain ⟨-, -, pre, hdec, hsent, -⟩ := hs
  rw [sendChunk]
  by_cases hend : buffer.length ≤ s.offset
  · rw [if_pos hend]
    refine ⟨fun hww => by simp [hw1] at hww, fun _ => ⟨hw1, ht, hend⟩, pre, hdec, ?_, ?_⟩
    · intro hcontra
      simp at hcontra
    · intro _
      simp [hsent hf]
  · rw [if_neg hend]
    by_cases hhw : hw
    · rw [if_pos hhw]
      exact ⟨fun _ => ht, fun hcontra => by simp [hf] at hcontra,
        pre, hdec, fun _ => hsent hf, fun hcontra => by simp [hf] at hcontra⟩
    · rw [if_neg hhw]
      refine ⟨fun hww => by simp [hw1] at hww, fun hcontra => by simp [hf] at hcontra,
        pre ++ [(buffer.drop s.offset).take CHUNK_SIZE], ?_, ?_, fun hcontra => by simp [hf] at hcontra⟩
      · rw [hdec, fileChunks_cons (by omega), List.append_assoc]
        rfl
      · intro _
        simp [hsent hf]

/-- Helper: every timer or drain event preserves the sender invariant. -/
theorem senderStep_inv (buffer : List Nat) (s : SenderState) (e : SenderEvent)
    (h : SenderInv buffer s) : SenderInv buffer (senderStep buffer s e) := by
  cases e with
  | timer hw =>
      rw [senderStep]
      by_cases htp : s.timerPending
      · rw [if_pos htp]
        have hwf : s.waiting = false := by
          by_contra hc
          simp only [Bool.not_eq_false] at hc
          rw [h.1 hc] at htp
          exact Bool.false_ne_true htp
        have hff : s.finished = false := by
          by_contra hc
          simp only [Bool.not_eq_false] at hc
          rw [(h.2.1 hc).2.1] at htp
          exact Bool.false_ne_true htp
        refine sendChunk_inv buffer hw _ hwf rfl hff ?_
        obtain ⟨-, -, pre, hdec, hs1, hs2⟩ := h
        exact ⟨fun hww => rfl, fun hc => by simp [hff] at hc, pre, hdec, fun _ => hs1 hff,
          fun hc => by simp [hff] at hc⟩
      · rw [if_neg htp]
        exact h
  | drain hw =>
      rw [senderStep]
      by_cases hwt : s.waiting
      · rw [if_pos hwt]
        have htp : s.timerPending = false := h.1 hwt
        have hff : s.finished = false := by
          by_contra hc
          simp only [Bool.not_eq_false] at hc
          rw [(h.2.1 hc).1] at hwt
          exact Bool.false_ne_true hwt
        refine sendChunk_inv buffer hw _ rfl htp hff ?_
        obtain ⟨-, -, pre, hdec, hs1, hs2⟩ := h
        exact ⟨fun hww => by simp at hww, fun hc => by simp [hff] at hc, pre, hdec,
          fun _ => hs1 hff, fun hc => by simp [hff] at hc⟩
      · rw [if_neg hwt]
        exact h

/-- Helper: the state after the initial direct sendChunk call satisfies
the sender invariant. -/
theorem senderStart_inv (buffer : List Nat) (hw : Bool) :
    SenderInv buffer (sendChunk buffer hw initSenderState) := by
  refine sendChunk_inv buffer hw initSenderState rfl rfl rfl ?_
  exact ⟨fun hc => by simp [initSenderState] at hc, fun hc => by simp [initSenderState] at hc,
    [], rfl, fun _ => rfl, fun hc => by simp [initSenderState] at hc⟩

/-- Helper: every reachable sender-loop state satisfies the invariant. -/
theorem reachable_senderInv {buffer : List Nat} {s : SenderState}
    (h : SenderReachable buffer s) : SenderInv buffer s := by
  induction h with
  | start hw => exact senderStart_inv buffer hw
  | step e _ ih => exact senderStep_inv buffer _ e ih

/-- Helper: running any schedule of events preserves reachability. -/
theorem runSender_reachable {buffer : List Nat} {s : SenderState}
    (h : SenderReachable buffer s) (evts : List SenderEvent) :
    SenderReachable buffer (runSender buffer s evts) := by
  induction evts generalizing s with
  | nil => exact h
  | cons e rest ih => exact ih (SenderReachable.step e h)

/-- Helper: from a state with the timer armed and n chunks remaining,
n + 1 timer callbacks under low buffered amount finish the loop. -/
theorem run_timers_finishes (n : Nat) :
    ∀ (buffer : List Nat) (offset : Nat) (sent : List Frame),
    (fileChunks buffer offset).length = n →
    (runSender buffer ⟨offset, false, true, sent, false⟩
      (List.replicate (n + 1) (SenderEvent.timer false))).finished = true := by
  induction n with
  | zero =>
      intro buffer offset sent hn
      have hend : buffer.length ≤ offset := by
        by_contra hc
        rw [fileChunks_cons (by omega)] at hn
        simp at hn
      have h1 : runSender buffer ⟨offset, false, true, sent, false⟩
            (List.replicate 1 (SenderEvent.timer false))
          = sendChunk buffer false ⟨offset, false, false, sent, false⟩ := rfl
      rw [h1, sendChunk, if_pos hend]
  | succ k ih =>
      intro buffer offset sent hn
      have hlt : offset < buffer.length := by
        by_contra hc
        rw [fileChunks_nil (by omega)] at hn
        simp at hn
      have hstep : runSender buffer ⟨offset, false, true, sent, false⟩
            (List.replicate (k + 1 + 1) (SenderEvent.timer false))
          = runSender buffer (sendChunk buffer false ⟨offset, false, false, sent, false⟩)
              (List.replicate (k + 1) (SenderEvent.timer false)) := rfl
      rw [hstep]
      have hsend : sendChunk buffer false ⟨offset, false, false, sent, false⟩
          = ⟨offset + ((buffer.drop offset).take CHUNK_SIZE).length, false, true,
             sent ++ [Frame.binary ((buffer.drop offset).take CHUNK_SIZE)], false⟩ := by
        rw [sendChunk, if_neg (by exact Nat.not_le.2 hlt)]
        rfl
      rw [hsend]
      apply ih
      rw [fileChunks_cons hlt] at hn
      simpa using hn

/-- C1: whenever a sendFile run over an open channel completes (under any
schedule of timer and drain events), the frames transmitted are exactly one
file-meta record, then the chunk frames in offset order, then one file-end
record; the canonical schedule completes; the chunk count is
ceil(size / 16384); the i-th chunk is the slice at offset i * 16384; the
chunks concatenate back to the content; and every chunk is 16384 bytes
except the final one, which is size mod 16384 (or a full chunk when the
size divides evenly). -/
theorem C1_sendFile_framing (f : JsFile) :
    (∀ (hw0 : Bool) (evts : List SenderEvent),
      (runSender f.content (sendChunk f.content hw0 initSenderState) evts).finished = true →
      sendFile true f hw0 evts
        = Frame.ctrl (encodeFileMeta ⟨f.name, f.content.length, f.type⟩)
          :: ((fileChunks f.content 0).map Frame.binary ++ [Frame.ctrl fileEndJson]))
    ∧ (runSender f.content (sendChunk f.content false initSenderState)
        (List.replicate ((fileChunks f.content 0).length) (SenderEvent.timer false))).finished
        = true
    ∧ (fileChunks f.content 0).length = (f.content.length + CHUNK_SIZE - 1) / CHUNK_SIZE
    ∧ (∀ i : Nat, (fileChunks f.content 0).getD i []
        = (f.content.drop (i * CHUNK_SIZE)).take CHUNK_SIZE)
    ∧ (fileChunks f.content 0).flatten = f.content
    ∧ (fileChunks f.content 0).map List.length
        = List.replicate ((fileChunks f.content 0).length - 1) CHUNK_SIZE
          ++ (if f.content.length = 0 then []
              else [if f.content.length % CHUNK_SIZE = 0 then CHUNK_SIZE
                    else f.content.length % CHUNK_SIZE]) := by
  refine ⟨?_, ?_, ?_, ?_, ?_, ?_⟩
  · intro hw0 evts hfin
    have hreach := runSender_reachable (@SenderReachable.start f.content hw0) evts
    have hinv := reachable_senderInv hreach
    obtain ⟨-, hfl, pre, hdec, -, hs2⟩ := hinv
    have hoff := (hfl hfin).2.2
    rw [fileChunks_nil hoff, List.append_nil] at hdec
    have hsent := hs2 hfin
    show Frame.ctrl (encodeFileMeta ⟨f.name, f.content.length, f.type⟩)
        :: (runSender f.content (sendChunk f.content hw0 initSenderState) evts).sent = _
    rw [hsent, hdec]
  · by_cases h0 : f.content.length = 0
    · have h1 : List.replicate ((fileChunks f.content 0).length) (SenderEvent.timer false) = [] := by
        rw [fileChunks_nil (show f.content.length ≤ 0 by omega)]
        rfl
      rw [h1]
      show (sendChunk f.content false initSenderState).finished = true
      rw [sendChunk, if_pos (show f.content.length ≤ initSenderState.offset by
        simp only [initSenderState]; omega)]
    · have hlt : (0 : Nat) < f.content.length := by omega
      have hsend : sendChunk f.content false initSenderState
          = ⟨0 + ((f.content.drop 0).take CHUNK_SIZE).length, false, true,
             [] ++ [Frame.binary ((f.content.drop 0).take CHUNK_SIZE)], false⟩ := by
        rw [sendChunk, if_neg (by exact Nat.not_le.2 hlt)]
        rfl
      rw [hsend]
      have hn : (fileChunks f.content 0).length
          = (fileChunks f.content (0 + ((f.content.drop 0).take CHUNK_SIZE).length)).length + 1 := by
        rw [fileChunks_cons hlt]
        simp
      rw [hn]
      exact run_timers_finishes _ f.content _ _ rfl
  · rw [fileChunks_length]
    simp only [Nat.sub_zero]
  · intro i
    rw [fileChunks_getD]
    simp only [Nat.zero_add]
  · rw [fileChunks_flatten]
    simp only [List.drop_zero]
  · by_cases h0 : f.content.length = 0
    · rw [fileChunks_nil (show f.content.length ≤ 0 by omega), if_pos h0]
      simp
    · rw [if_neg h0, fileChunks_map_length f.content 0 (by omega)]
      simp only [Nat.sub_zero]

/-- Witness for C1 at a concrete 3-byte file and the canonical one-timer
schedule. -/
theorem C1_sendFile_framing_witness :
    sendFile true ⟨"f", "t", [1, 2, 3]⟩ false [SenderEvent.timer false]
      = Frame.ctrl (encodeFileMeta ⟨"f", 3, "t"⟩)
        :: ((fileChunks [1, 2, 3] 0).map Frame.binary ++ [Frame.ctrl fileEndJson]) :=
  (C1_sendFile_framing ⟨"f", "t", [1, 2, 3]⟩).1 false [SenderEvent.timer false] (by rfl)

/-- C3: in every reachable sender-loop state, a sendChunk invocation that
observes the buffered amount above the threshold before a chunk send only
registers the one-shot continuation (nothing is sent, the offset does not
move); while the continuation is registered no timer callback does
anything; the drain signal clears the slot and runs sendChunk exactly
once; and a drain signal with no registered continuation does nothing. -/
theorem C3_backpressure (buffer : List Nat) (s : SenderState)
    (hr : SenderReachable buffer s) :
    (s.offset < buffer.length → sendChunk buffer true s = { s with waiting := true })
    ∧ (s.waiting = true → ∀ hw : Bool, senderStep buffer s (SenderEvent.timer hw) = s)
    ∧ (s.waiting = true → ∀ hw : Bool, senderStep buffer s (SenderEvent.drain hw)
        = sendChunk buffer hw { s with waiting := false })
    ∧ (s.waiting = false → ∀ hw : Bool, senderStep buffer s (SenderEvent.drain hw) = s) := by
  refine ⟨?_, ?_, ?_, ?_⟩
  · intro h
    rw [sendChunk, if_neg (by exact Nat.not_le.2 h)]
    rw [if_pos rfl]
  · intro hw1 hw
    have htp : s.timerPending = false := (reachable_senderInv hr).1 hw1
    rw [senderStep, if_neg (by rw [htp]; exact Bool.false_ne_true)]
  · intro hw1 hw
    rw [senderStep, if_pos hw1]
  · intro hw1 hw
    rw [senderStep, if_neg (by rw [hw1]; exact Bool.false_ne_true)]

/-- Witness for C3 at a concrete reachable suspended state: the first
sendChunk call on a 3-byte buffer observes high buffered amount and
suspends; a timer event is then inert and a drain event resumes once. -/
theorem C3_backpressure_witness :
    sendChunk [1, 2, 3] true (sendChunk [1, 2, 3] true initSenderState)
        = { sendChunk [1, 2, 3] true initSenderState with waiting := true }
    ∧ senderStep [1, 2, 3] (sendChunk [1, 2, 3] true initSenderState) (SenderEvent.timer false)
        = sendChunk [1, 2, 3] true initSenderState
    ∧ senderStep [1, 2, 3] (sendChunk [1, 2, 3] true initSenderState) (SenderEvent.drain false)
        = sendChunk [1, 2, 3] false
            { sendChunk [1, 2, 3] true initSenderState with waiting := false } := by
  have h := C3_backpressure [1, 2, 3] (sendChunk [1, 2, 3] true initSenderState)
    (@SenderReachable.start [1, 2, 3] true)
  exact ⟨h.1 (by decide), h.2.1 (by decide) false, h.2.2.1 (by decide) false⟩
